import Mathlib

/-!
Shallow embedding of `crates/bevy_sprite/src/texture_atlas_layout.rs`.

The source works with `bevy_math::Vec2` (two `f32` components, componentwise
`+`, `-`, `*`) and `bevy_utils::HashMap<Handle<Image>, usize>`.  Here `f32`
components are modelled as exact rationals, `Handle<Image>` as an abstract
identity token (a natural number — only equality of handles matters in this
module), and the hash map as an association list queried through `hmGet`;
key uniqueness of the hash map is carried as a `Nodup` hypothesis where it
matters.  Mutating methods take the receiver and return the updated value,
together with the Rust return value when there is one.
-/

/-- Model of `bevy_math::Vec2`: two components, here exact rationals. -/
structure Vec2 where
  x : ℚ
  y : ℚ
deriving DecidableEq

/-- Model of `Vec2::ZERO`. -/
def Vec2.ZERO : Vec2 := ⟨0, 0⟩

instance : Add Vec2 := ⟨fun a b => ⟨a.x + b.x, a.y + b.y⟩⟩

instance : Sub Vec2 := ⟨fun a b => ⟨a.x - b.x, a.y - b.y⟩⟩

instance : Mul Vec2 := ⟨fun a b => ⟨a.x * b.x, a.y * b.y⟩⟩

/-- Model of `bevy_math::Rect`: an axis-aligned rectangle given by two corners. -/
structure Rect where
  min : Vec2
  max : Vec2
deriving DecidableEq

/-- Identity token standing for `Handle<Image>`. -/
abbrev Handle := Nat

/-- Model of `HashMap::get` on an association-list model of
`bevy_utils::HashMap<Handle<Image>, usize>`. -/
def hmGet : List (Handle × Nat) → Handle → Option Nat
  | [], _ => none
  | p :: rest, k => if p.1 = k then some p.2 else hmGet rest k

/-- Model of `TextureAtlasLayout`. -/
structure TextureAtlasLayout where
  size : Vec2
  textures : List Rect
  texture_handles : Option (List (Handle × Nat))
deriving DecidableEq

/-- Model of `TextureAtlasLayout::new_empty`. -/
def TextureAtlasLayout.new_empty (dimensions : Vec2) : TextureAtlasLayout :=
  { size := dimensions
    texture_handles := none
    textures := [] }

/-- Body of the inner `for x in 0..columns` loop of `from_grid`: sets
`current_padding.x = padding.x` when `x > 0`, then pushes the cell rectangle.
The loop state is the pair (sprites, current_padding). -/
def gridInnerStep (tile_size padding offset : Vec2) (y : Nat)
    (st : List Rect × Vec2) (x : Nat) : List Rect × Vec2 :=
  let cp : Vec2 := if 0 < x then ⟨padding.x, st.2.y⟩ else st.2
  let cell : Vec2 := ⟨(x : ℚ), (y : ℚ)⟩
  let rect_min := (tile_size + cp) * cell + offset
  (st.1 ++ [⟨rect_min, rect_min + tile_size⟩], cp)

/-- Body of the outer `for y in 0..rows` loop of `from_grid`: sets
`current_padding.y = padding.y` when `y > 0`, then runs the inner loop. -/
def gridOuterStep (tile_size padding offset : Vec2) (columns : Nat)
    (st : List Rect × Vec2) (y : Nat) : List Rect × Vec2 :=
  let cp : Vec2 := if 0 < y then ⟨st.2.x, padding.y⟩ else st.2
  (List.range columns).foldl (gridInnerStep tile_size padding offset y) (st.1, cp)

/-- Model of `TextureAtlasLayout::from_grid`. -/
def TextureAtlasLayout.from_grid (tile_size : Vec2) (columns rows : Nat)
    (padding offset : Option Vec2) : TextureAtlasLayout :=
  let padding := padding.getD Vec2.ZERO
  let offset := offset.getD Vec2.ZERO
  let st := (List.range rows).foldl
    (gridOuterStep tile_size padding offset columns) ([], Vec2.ZERO)
  let grid_size : Vec2 := ⟨(columns : ℚ), (rows : ℚ)⟩
  { size := ((tile_size + st.2) * grid_size) - st.2
    textures := st.1
    texture_handles := none }

/-- Model of `TextureAtlasLayout::add_texture`: returns the updated layout
together with the Rust return value (the index of the appended section). -/
def TextureAtlasLayout.add_texture (l : TextureAtlasLayout) (rect : Rect) :
    TextureAtlasLayout × Nat :=
  let textures := l.textures ++ [rect]
  ({ l with textures := textures }, textures.length - 1)

/-- Model of `TextureAtlasLayout::len`. -/
def TextureAtlasLayout.len (l : TextureAtlasLayout) : Nat :=
  l.textures.length

/-- Model of `TextureAtlasLayout::is_empty`. -/
def TextureAtlasLayout.is_empty (l : TextureAtlasLayout) : Bool :=
  l.textures.isEmpty

/-- Model of `TextureAtlasLayout::get_texture_index`: `Option::and_then` over
the optional handle map. -/
def TextureAtlasLayout.get_texture_index (l : TextureAtlasLayout)
    (texture : Handle) : Option Nat :=
  l.texture_handles.bind fun texture_handles => hmGet texture_handles texture

/-- Layouts reachable by constructing with `new_empty` or `from_grid` and then
applying any sequence of `add_texture` calls. -/
inductive Reachable : TextureAtlasLayout → Prop
  | of_new_empty (d : Vec2) : Reachable (TextureAtlasLayout.new_empty d)
  | of_from_grid (ts : Vec2) (c r : Nat) (p o : Option Vec2) :
      Reachable (TextureAtlasLayout.from_grid ts c r p o)
  | of_add_texture (l : TextureAtlasLayout) (rect : Rect) (h : Reachable l) :
      Reachable (l.add_texture rect).1

/-- Per-cell padding as the spec describes the grid: `padding.x` for columns
after the first, `padding.y` for rows after the first, zero otherwise. -/
def padAt (padding : Vec2) (x y : Nat) : Vec2 :=
  ⟨if 0 < x then padding.x else 0, if 0 < y then padding.y else 0⟩

/-- Minimum corner of the grid cell in column `x`, row `y`, per the spec:
`(tile_size + pad) * (x, y) + offset`. -/
def sectionMin (tile_size padding offset : Vec2) (x y : Nat) : Vec2 :=
  (tile_size + padAt padding x y) * ⟨(x : ℚ), (y : ℚ)⟩ + offset

/-- Rectangle of the grid cell in column `x`, row `y`, per the spec:
`max = min + tile_size`. -/
def sectionAt (tile_size padding offset : Vec2) (x y : Nat) : Rect :=
  ⟨sectionMin tile_size padding offset x y,
   sectionMin tile_size padding offset x y + tile_size⟩

/-- Row-major list of the grid sections of the first `rows` rows. -/
def gridSections (tile_size padding offset : Vec2) (columns : Nat) : Nat → List Rect
  | 0 => []
  | m + 1 => gridSections tile_size padding offset columns m ++
      (List.range columns).map fun x => sectionAt tile_size padding offset x m

/-- Final value of the `current_padding` accumulator of `from_grid`: the `x`
component was touched iff some iteration had `x > 0` (so `columns ≥ 2` and
`rows ≥ 1`); the `y` component was touched iff some iteration had `y > 0`
(so `rows ≥ 2`). -/
def cpFinal (padding : Vec2) (columns rows : Nat) : Vec2 :=
  ⟨if 2 ≤ columns ∧ 1 ≤ rows then padding.x else 0,
   if 2 ≤ rows then padding.y else 0⟩

/-- Layouts reachable as in `Reachable`, but where every `from_grid` source has
componentwise non-negative `tile_size`, and every added rectangle is valid
(`min.x ≤ max.x` and `min.y ≤ max.y`). -/
inductive ValidReachable : TextureAtlasLayout → Prop
  | of_new_empty (d : Vec2) : ValidReachable (TextureAtlasLayout.new_empty d)
  | of_from_grid (ts : Vec2) (c r : Nat) (p o : Option Vec2)
      (hx : 0 ≤ ts.x) (hy : 0 ≤ ts.y) :
      ValidReachable (TextureAtlasLayout.from_grid ts c r p o)
  | of_add_texture (l : TextureAtlasLayout) (rect : Rect) (h : ValidReachable l)
      (hv : rect.min.x ≤ rect.max.x ∧ rect.min.y ≤ rect.max.y) :
      ValidReachable (l.add_texture rect).1

/-- Size formula exactly as claim C2 states it: the final padding accumulator
is taken to be `padding.x` whenever `columns > 1` (with no condition on
`rows`) and `padding.y` whenever `rows > 1`. -/
def claimedSizeC2 (tile_size : Vec2) (columns rows : Nat) (padding : Vec2) : Vec2 :=
  ((tile_size + ⟨if 1 < columns then padding.x else 0, if 1 < rows then padding.y else 0⟩)
      * ⟨(columns : ℚ), (rows : ℚ)⟩)
    - ⟨if 1 < columns then padding.x else 0, if 1 < rows then padding.y else 0⟩

theorem Vec2.add_def (a b : Vec2) : a + b = ⟨a.x + b.x, a.y + b.y⟩ := rfl

theorem Vec2.sub_def (a b : Vec2) : a - b = ⟨a.x - b.x, a.y - b.y⟩ := rfl

theorem Vec2.mul_def (a b : Vec2) : a * b = ⟨a.x * b.x, a.y * b.y⟩ := rfl

theorem gridInner_eq (ts pad off : Vec2) (y : Nat) :
    ∀ (n : Nat) (sp : List Rect) (cpx : ℚ),
    (List.range n).foldl (gridInnerStep ts pad off y)
        (sp, ⟨cpx, if 0 < y then pad.y else 0⟩)
      = (sp ++ (List.range n).map (fun x => sectionAt ts pad off x y),
         ⟨if 2 ≤ n then pad.x else cpx, if 0 < y then pad.y else 0⟩) := by
  intro n
  induction n with
  | zero => intro sp cpx; simp
  | succ n ih =>
    intro sp cpx
    rw [List.range_succ, List.foldl_append, ih]
    rcases Nat.eq_zero_or_pos n with h0 | hpos
    · subst h0
      simp only [List.range_zero, List.map_nil, List.append_nil, List.foldl_cons,
        List.foldl_nil, gridInnerStep, List.range_succ, List.map_append]
      norm_num [sectionAt, sectionMin, padAt, Vec2.add_def, Vec2.mul_def, Vec2.mk.injEq]
    · have h2 : 2 ≤ n + 1 := by omega
      simp only [List.foldl_cons, List.foldl_nil, gridInnerStep, hpos, if_pos, if_pos h2,
        List.range_succ, List.map_append, List.map_cons, List.map_nil, List.append_assoc]
      simp [sectionAt, sectionMin, padAt, hpos]

theorem gridOuter_eq (ts pad off : Vec2) (columns : Nat) :
    ∀ m : Nat,
    (List.range m).foldl (gridOuterStep ts pad off columns) ([], Vec2.ZERO)
      = (gridSections ts pad off columns m, cpFinal pad columns m) := by
  intro m
  induction m with
  | zero => simp [gridSections, cpFinal, Vec2.ZERO]
  | succ m ih =>
    rw [List.range_succ, List.foldl_append, ih]
    simp only [List.foldl_cons, List.foldl_nil, gridOuterStep]
    have hcp : (if 0 < m then (⟨(cpFinal pad columns m).x, pad.y⟩ : Vec2)
          else cpFinal pad columns m)
        = ⟨if 2 ≤ columns ∧ 1 ≤ m then pad.x else 0, if 0 < m then pad.y else 0⟩ := by
      rcases Nat.eq_zero_or_pos m with h0 | hpos
      · subst h0; simp [cpFinal]
      · simp [hpos, cpFinal]
    rw [hcp, gridInner_eq]
    have h1 : 1 ≤ m + 1 := Nat.succ_le_succ (Nat.zero_le m)
    simp only [Prod.mk.injEq]
    refine ⟨by simp [gridSections], ?_⟩
    simp only [cpFinal, Vec2.mk.injEq]
    constructor
    · by_cases hc : 2 ≤ columns <;> simp [hc, h1]
    · by_cases hm : 0 < m
      · have h2 : 2 ≤ m + 1 := by omega
        simp [hm, h2]
      · have h2 : ¬ 2 ≤ m + 1 := by omega
        simp [hm, h2]

/-- Textures list built by `from_grid` is exactly the row-major grid. -/
theorem from_grid_textures (ts : Vec2) (columns rows : Nat) (p o : Option Vec2) :
    (TextureAtlasLayout.from_grid ts columns rows p o).textures
      = gridSections ts (p.getD Vec2.ZERO) (o.getD Vec2.ZERO) columns rows := by
  simp [TextureAtlasLayout.from_grid, gridOuter_eq]

/-- Size computed by `from_grid`, in terms of the final padding accumulator. -/
theorem from_grid_size (ts : Vec2) (columns rows : Nat) (p o : Option Vec2) :
    (TextureAtlasLayout.from_grid ts columns rows p o).size
      = ((ts + cpFinal (p.getD Vec2.ZERO) columns rows)
          * ⟨(columns : ℚ), (rows : ℚ)⟩) - cpFinal (p.getD Vec2.ZERO) columns rows := by
  simp [TextureAtlasLayout.from_grid, gridOuter_eq]

theorem gridSections_length (ts pad off : Vec2) (columns : Nat) :
    ∀ m, (gridSections ts pad off columns m).length = m * columns := by
  intro m
  induction m with
  | zero => simp [gridSections]
  | succ m ih => simp [gridSections, ih, Nat.succ_mul]

theorem gridSections_getElem? (ts pad off : Vec2) (columns : Nat) :
    ∀ (m x y : Nat), x < columns → y < m →
    (gridSections ts pad off columns m)[y * columns + x]?
      = some (sectionAt ts pad off x y) := by
  intro m
  induction m with
  | zero => intro x y hx hy; omega
  | succ m ih =>
    intro x y hx hy
    show (gridSections ts pad off columns m ++
        (List.range columns).map fun x => sectionAt ts pad off x m)[y * columns + x]?
      = some (sectionAt ts pad off x y)
    rcases Nat.lt_or_ge y m with hym | hym
    · have hidx : y * columns + x < (gridSections ts pad off columns m).length := by
        rw [gridSections_length]
        calc y * columns + x < y * columns + columns := by omega
          _ = (y + 1) * columns := (Nat.succ_mul y columns).symm
          _ ≤ m * columns := Nat.mul_le_mul_right columns hym
      rw [List.getElem?_append, if_pos hidx, ih x y hx hym]
    · have hy' : y = m := by omega
      subst hy'
      have hlen : (gridSections ts pad off columns y).length ≤ y * columns + x := by
        rw [gridSections_length]
        exact Nat.le_add_right _ _
      rw [List.getElem?_append_right hlen, gridSections_length, Nat.add_sub_cancel_left,
        List.getElem?_map, List.getElem?_range hx]
      rfl

theorem cpFinal_eq (pad : Vec2) (c r : Nat) :
    cpFinal pad c r
      = ⟨if 1 < c ∧ 0 < r then pad.x else 0, if 1 < r then pad.y else 0⟩ := by
  simp only [cpFinal, Vec2.mk.injEq]
  constructor
  · by_cases h : 2 ≤ c ∧ 1 ≤ r
    · rw [if_pos h, if_pos (by omega)]
    · rw [if_neg h, if_neg (by omega)]
  · by_cases h : 2 ≤ r
    · rw [if_pos h, if_pos (by omega)]
    · rw [if_neg h, if_neg (by omega)]

theorem hmGet_eq_none (m : List (Handle × Nat)) (t : Handle)
    (h : t ∉ m.map Prod.fst) : hmGet m t = none := by
  induction m with
  | nil => rfl
  | cons p rest ih =>
    simp only [List.map_cons, List.mem_cons] at h
    push_neg at h
    have hne : p.1 ≠ t := fun he => h.1 he.symm
    show (if p.1 = t then some p.2 else hmGet rest t) = none
    rw [if_neg hne]
    exact ih h.2

theorem hmGet_eq_some (m : List (Handle × Nat)) (t : Handle) (i : Nat)
    (hnd : (m.map Prod.fst).Nodup) (hmem : (t, i) ∈ m) : hmGet m t = some i := by
  induction m with
  | nil => cases hmem
  | cons p rest ih =>
    simp only [List.map_cons, List.nodup_cons] at hnd
    rcases List.mem_cons.mp hmem with h | h
    · simp [hmGet, ← h]
    · have hne : p.1 ≠ t := by
        intro he
        exact hnd.1 (he ▸ List.mem_map.mpr ⟨(t, i), h, rfl⟩)
      simp only [hmGet, if_neg hne]
      exact ih hnd.2 h

theorem mem_gridSections (ts pad off : Vec2) (columns : Nat) :
    ∀ (m : Nat) (r : Rect), r ∈ gridSections ts pad off columns m →
    ∃ x y, r = sectionAt ts pad off x y := by
  intro m
  induction m with
  | zero => intro r hr; simp [gridSections] at hr
  | succ m ih =>
    intro r hr
    rw [gridSections, List.mem_append] at hr
    rcases hr with hr | hr
    · exact ih r hr
    · obtain ⟨x, _, hx⟩ := List.mem_map.mp hr
      exact ⟨x, m, hx.symm⟩

example :
    (TextureAtlasLayout.from_grid ⟨1, 2⟩ 2 2 (some ⟨3, 4⟩) (some ⟨10, 20⟩)).textures
      = [⟨⟨10, 20⟩, ⟨11, 22⟩⟩, ⟨⟨14, 20⟩, ⟨15, 22⟩⟩,
         ⟨⟨10, 26⟩, ⟨11, 28⟩⟩, ⟨⟨14, 26⟩, ⟨15, 28⟩⟩] := by
  norm_num [TextureAtlasLayout.from_grid, gridOuterStep, gridInnerStep, List.range_succ,
    Vec2.ZERO, Vec2.add_def, Vec2.mul_def, Vec2.sub_def, Vec2.mk.injEq, Rect.mk.injEq]

/-- C1: `from_grid` assigns sections in row-major order: for `0 ≤ x < columns`
and `0 ≤ y < rows`, the section stored at flattened index `y * columns + x` is
`sectionAt tile_size padding offset x y`, i.e. it has
`min = (tile_size + pad) * (x, y) + offset` where `pad.x = padding.x` iff
`x > 0` (else `0`), `pad.y = padding.y` iff `y > 0` (else `0`), and
`max = min + tile_size`. -/
theorem from_grid_row_major (tile_size : Vec2) (columns rows : Nat)
    (padding offset : Option Vec2) (x y : Nat) (hx : x < columns) (hy : y < rows) :
    (TextureAtlasLayout.from_grid tile_size columns rows padding offset).textures[y * columns + x]?
      = some (sectionAt tile_size (padding.getD Vec2.ZERO) (offset.getD Vec2.ZERO) x y) := by
  rw [from_grid_textures]
  exact gridSections_getElem? _ _ _ _ rows x y hx hy

/-- Witness for C1 at `tile_size = (1,2)`, `padding = (3,4)`, `offset = (10,20)`,
a 2×2 grid, cell `x = 1`, `y = 1` (flattened index 3). -/
theorem from_grid_row_major_witness :
    (TextureAtlasLayout.from_grid ⟨1, 2⟩ 2 2 (some ⟨3, 4⟩) (some ⟨10, 20⟩)).textures[3]?
      = some (sectionAt ⟨1, 2⟩ ⟨3, 4⟩ ⟨10, 20⟩ 1 1) :=
  from_grid_row_major ⟨1, 2⟩ 2 2 (some ⟨3, 4⟩) (some ⟨10, 20⟩) 1 1 (by decide) (by decide)

/-- C2 as stated is false: with `columns = 2`, `rows = 0` and `padding = (1,1)`
the loop body never runs, so the padding accumulator stays zero and
`size = (2, 0)`, while the claimed formula (which charges `padding.x` as soon
as `columns > 1`) yields `(3, 0)`. -/
theorem from_grid_size_claim_counterexample :
    (TextureAtlasLayout.from_grid ⟨1, 1⟩ 2 0 (some ⟨1, 1⟩) none).size
      ≠ claimedSizeC2 ⟨1, 1⟩ 2 0 ⟨1, 1⟩ := by
  rw [from_grid_size]
  norm_num [claimedSizeC2, cpFinal, Vec2.ZERO, Vec2.add_def, Vec2.mul_def, Vec2.sub_def,
    Vec2.mk.injEq]

/-- C2 (amended): `size = (tile_size + cpf) * (columns, rows) - cpf`, where
`cpf.x = padding.x` if `columns > 1` AND `rows > 0` (else `0`; the accumulator
is only written inside the loops, so a run with `rows = 0` never touches it)
and `cpf.y = padding.y` if `rows > 1` (else `0`). -/
theorem from_grid_size_spec (tile_size : Vec2) (columns rows : Nat)
    (padding offset : Option Vec2) :
    (TextureAtlasLayout.from_grid tile_size columns rows padding offset).size
      = ((tile_size + ⟨if 1 < columns ∧ 0 < rows then (padding.getD Vec2.ZERO).x else 0,
            if 1 < rows then (padding.getD Vec2.ZERO).y else 0⟩)
          * ⟨(columns : ℚ), (rows : ℚ)⟩)
        - ⟨if 1 < columns ∧ 0 < rows then (padding.getD Vec2.ZERO).x else 0,
            if 1 < rows then (padding.getD Vec2.ZERO).y else 0⟩ := by
  rw [from_grid_size, cpFinal_eq]

/-- C3: `from_grid` produces exactly `columns * rows` sections, and the section
list is empty whenever `columns = 0` or `rows = 0`. -/
theorem from_grid_count (tile_size : Vec2) (columns rows : Nat)
    (padding offset : Option Vec2) :
    (TextureAtlasLayout.from_grid tile_size columns rows padding offset).textures.length
        = columns * rows
    ∧ (columns = 0 ∨ rows = 0 →
        (TextureAtlasLayout.from_grid tile_size columns rows padding offset).textures
          = []) := by
  have hlen :
      (TextureAtlasLayout.from_grid tile_size columns rows padding offset).textures.length
        = columns * rows := by
    rw [from_grid_textures, gridSections_length, Nat.mul_comm]
  refine ⟨hlen, fun h => ?_⟩
  rw [← List.length_eq_zero, hlen]
  rcases h with h | h <;> simp [h]

/-- Witness for C3 with `columns = 0`, `rows = 3`: no sections at all. -/
theorem from_grid_count_witness :
    (TextureAtlasLayout.from_grid ⟨1, 1⟩ 0 3 none none).textures.length = 0 * 3
    ∧ (TextureAtlasLayout.from_grid ⟨1, 1⟩ 0 3 none none).textures = [] :=
  ⟨(from_grid_count ⟨1, 1⟩ 0 3 none none).1,
   (from_grid_count ⟨1, 1⟩ 0 3 none none).2 (Or.inl rfl)⟩

/-- C4: on a layout with `n` sections, `add_texture r` returns `n`, afterwards
`len = n + 1`, and the section at index `n` is `r`. -/
theorem add_texture_spec (l : TextureAtlasLayout) (r : Rect) :
    (l.add_texture r).2 = l.len
    ∧ (l.add_texture r).1.len = l.len + 1
    ∧ (l.add_texture r).1.textures[l.len]? = some r := by
  refine ⟨?_, ?_, ?_⟩
  · simp [TextureAtlasLayout.add_texture, TextureAtlasLayout.len]
  · simp [TextureAtlasLayout.add_texture, TextureAtlasLayout.len]
  · show (l.textures ++ [r])[l.textures.length]? = some r
    exact List.getElem?_concat_length _ _

/-- C5: `get_texture_index` returns "not found" when no identity mapping is
attached, and with a mapping attached it returns the stored index for present
identities and "not found" for absent ones.  The receiver is read-only in the
model (the function is pure) and total, so no panic is possible. -/
theorem get_texture_index_spec (l : TextureAtlasLayout) (t : Handle) :
    (l.texture_handles = none → l.get_texture_index t = none)
    ∧ (∀ m, l.texture_handles = some m → t ∉ m.map Prod.fst →
        l.get_texture_index t = none)
    ∧ (∀ m i, l.texture_handles = some m → (m.map Prod.fst).Nodup → (t, i) ∈ m →
        l.get_texture_index t = some i) := by
  refine ⟨fun h => ?_, fun m hm habs => ?_, fun m i hm hnd hmem => ?_⟩
  · simp [TextureAtlasLayout.get_texture_index, h]
  · simp [TextureAtlasLayout.get_texture_index, hm, hmGet_eq_none m t habs]
  · simp [TextureAtlasLayout.get_texture_index, hm, hmGet_eq_some m t i hnd hmem]

/-- Witness for C5: a layout whose mapping stores index 2 for identity 5. -/
theorem get_texture_index_spec_witness :
    TextureAtlasLayout.get_texture_index ⟨Vec2.ZERO, [], some [(5, 2)]⟩ 5 = some 2 :=
  (get_texture_index_spec ⟨Vec2.ZERO, [], some [(5, 2)]⟩ 5).2.2 [(5, 2)] 2 rfl
    (by decide) (by decide)

/-- C6 as stated is false: `add_texture` performs no validation, so appending
the inverted rectangle `min = (1,0)`, `max = (0,0)` to an empty layout yields a
reachable layout holding a section with `min.x > max.x`. -/
theorem sections_valid_counterexample :
    Reachable ((TextureAtlasLayout.new_empty ⟨0, 0⟩).add_texture ⟨⟨1, 0⟩, ⟨0, 0⟩⟩).1
    ∧ (⟨⟨1, 0⟩, ⟨0, 0⟩⟩ : Rect)
        ∈ ((TextureAtlasLayout.new_empty ⟨0, 0⟩).add_texture ⟨⟨1, 0⟩, ⟨0, 0⟩⟩).1.textures
    ∧ ¬ ((⟨⟨1, 0⟩, ⟨0, 0⟩⟩ : Rect).min.x ≤ (⟨⟨1, 0⟩, ⟨0, 0⟩⟩ : Rect).max.x) :=
  ⟨Reachable.of_add_texture _ _ (Reachable.of_new_empty _),
   by simp [TextureAtlasLayout.add_texture, TextureAtlasLayout.new_empty],
   by decide⟩

/-- C6 (amended): every stored section of a layout built by `new_empty` or by
`from_grid` with componentwise non-negative `tile_size`, followed by
`add_texture` calls whose rectangles each satisfy `min.x ≤ max.x` and
`min.y ≤ max.y`, itself satisfies `min.x ≤ max.x` and `min.y ≤ max.y`. -/
theorem sections_valid (l : TextureAtlasLayout) (h : ValidReachable l) :
    ∀ r ∈ l.textures, r.min.x ≤ r.max.x ∧ r.min.y ≤ r.max.y := by
  induction h with
  | of_new_empty d =>
    intro r hr
    simp [TextureAtlasLayout.new_empty] at hr
  | of_from_grid ts c rows p o hx hy =>
    intro r hr
    rw [from_grid_textures] at hr
    obtain ⟨x, y, rfl⟩ := mem_gridSections _ _ _ _ rows r hr
    exact ⟨le_add_of_nonneg_right hx, le_add_of_nonneg_right hy⟩
  | of_add_texture l rect hl hv ih =>
    intro r hr
    rcases List.mem_append.mp hr with hr | hr
    · exact ih r hr
    · rw [List.mem_singleton.mp hr]
      exact hv

/-- Witness for C6: a valid rectangle appended to an empty layout. -/
theorem sections_valid_witness :
    (⟨⟨0, 0⟩, ⟨1, 1⟩⟩ : Rect).min.x ≤ (⟨⟨0, 0⟩, ⟨1, 1⟩⟩ : Rect).max.x
    ∧ (⟨⟨0, 0⟩, ⟨1, 1⟩⟩ : Rect).min.y ≤ (⟨⟨0, 0⟩, ⟨1, 1⟩⟩ : Rect).max.y :=
  sections_valid _
    (ValidReachable.of_add_texture (TextureAtlasLayout.new_empty ⟨0, 0⟩) ⟨⟨0, 0⟩, ⟨1, 1⟩⟩
      (ValidReachable.of_new_empty ⟨0, 0⟩) (by decide))
    ⟨⟨0, 0⟩, ⟨1, 1⟩⟩
    (by simp [TextureAtlasLayout.add_texture, TextureAtlasLayout.new_empty])

/-- C7: `add_texture` only appends: `size`, the identity mapping (present or
absent), and every previously stored section are unchanged, and the whole new
section list is the old one with the new rectangle appended. -/
theorem add_texture_frame (l : TextureAtlasLayout) (r : Rect) :
    (l.add_texture r).1.size = l.size
    ∧ (l.add_texture r).1.texture_handles = l.texture_handles
    ∧ (∀ i, i < l.len → (l.add_texture r).1.textures[i]? = l.textures[i]?)
    ∧ (l.add_texture r).1.textures = l.textures ++ [r] := by
  refine ⟨rfl, rfl, fun i hi => ?_, rfl⟩
  have hi' : i < l.textures.length := hi
  show (l.textures ++ [r])[i]? = l.textures[i]?
  rw [List.getElem?_append, if_pos hi']

/-- Witness for C7 at a one-section layout and index 0. -/
theorem add_texture_frame_witness :
    (TextureAtlasLayout.add_texture ⟨⟨5, 5⟩, [⟨⟨0, 0⟩, ⟨1, 1⟩⟩], none⟩
        ⟨⟨2, 2⟩, ⟨3, 3⟩⟩).1.textures[0]?
      = (⟨⟨5, 5⟩, [⟨⟨0, 0⟩, ⟨1, 1⟩⟩], none⟩ : TextureAtlasLayout).textures[0]? :=
  (add_texture_frame ⟨⟨5, 5⟩, [⟨⟨0, 0⟩, ⟨1, 1⟩⟩], none⟩ ⟨⟨2, 2⟩, ⟨3, 3⟩⟩).2.2.1 0
    (by decide)

/-- C8: `new_empty d` is exactly the layout with `size = d`, no sections and an
absent (not merely empty) identity mapping, for every `d` (no validation); and
every `from_grid` result also has an absent identity mapping. -/
theorem new_empty_spec (d : Vec2) :
    TextureAtlasLayout.new_empty d
        = { size := d, textures := [], texture_handles := none }
    ∧ ∀ (ts : Vec2) (c r : Nat) (p o : Option Vec2),
        (TextureAtlasLayout.from_grid ts c r p o).texture_handles = none :=
  ⟨rfl, fun _ _ _ _ _ => rfl⟩

/-- C9: on every reachable layout, `is_empty` is true iff `len` is zero. -/
theorem is_empty_iff_len_zero (l : TextureAtlasLayout) (_hr : Reachable l) :
    l.is_empty = true ↔ l.len = 0 :=
  List.isEmpty_iff_length_eq_zero

/-- Witness for C9 at the empty layout. -/
theorem is_empty_iff_len_zero_witness :
    (TextureAtlasLayout.new_empty ⟨0, 0⟩).is_empty = true
      ↔ (TextureAtlasLayout.new_empty ⟨0, 0⟩).len = 0 :=
  is_empty_iff_len_zero _ (Reachable.of_new_empty ⟨0, 0⟩)

/-- C10's claim that neither component of `size` is negative in the degenerate
cases fails for negative `tile_size`: with `tile_size = (-1, 0)`, one column
and zero rows (and non-negative padding `(0,0)`), `size.x = -1 < 0`. -/
theorem degenerate_size_counterexample :
    (TextureAtlasLayout.from_grid ⟨-1, 0⟩ 1 0 (some ⟨0, 0⟩) none).size.x < 0 := by
  rw [from_grid_size]
  norm_num [cpFinal, Vec2.ZERO, Vec2.add_def, Vec2.mul_def, Vec2.sub_def]

/-- C10 (amended): for non-negative padding, `rows = 0` gives
`size = (tile_size.x * columns, 0)` and `columns = 0` gives `size.x = 0` (the
padding accumulator is only written inside the loops, so no padding is ever
subtracted along an axis with zero cells); provided `tile_size` is also
componentwise non-negative, neither component of `size` is negative in these
degenerate cases. -/
theorem from_grid_degenerate_spec (tile_size : Vec2) (columns rows : Nat)
    (padding offset : Option Vec2)
    (_hpx : 0 ≤ (padding.getD Vec2.ZERO).x) (hpy : 0 ≤ (padding.getD Vec2.ZERO).y) :
    (rows = 0 →
      (TextureAtlasLayout.from_grid tile_size columns rows padding offset).size
        = ⟨tile_size.x * (columns : ℚ), 0⟩)
    ∧ (columns = 0 →
      (TextureAtlasLayout.from_grid tile_size columns rows padding offset).size.x = 0)
    ∧ (0 ≤ tile_size.x → 0 ≤ tile_size.y → rows = 0 ∨ columns = 0 →
      0 ≤ (TextureAtlasLayout.from_grid tile_size columns rows padding offset).size.x
      ∧ 0 ≤ (TextureAtlasLayout.from_grid tile_size columns rows padding offset).size.y) := by
  have hrow0 : rows = 0 →
      (TextureAtlasLayout.from_grid tile_size columns rows padding offset).size
        = ⟨tile_size.x * (columns : ℚ), 0⟩ := by
    intro h
    subst h
    rw [from_grid_size]
    norm_num [cpFinal, Vec2.add_def, Vec2.mul_def, Vec2.sub_def, Vec2.mk.injEq]
  have hcol0 : columns = 0 →
      (TextureAtlasLayout.from_grid tile_size columns rows padding offset).size.x
        = 0 := by
    intro h
    subst h
    rw [from_grid_size]
    norm_num [cpFinal, Vec2.add_def, Vec2.mul_def, Vec2.sub_def]
  refine ⟨hrow0, hcol0, fun htx hty hdeg => ?_⟩
  rcases hdeg with h | h
  · rw [hrow0 h]
    exact ⟨mul_nonneg htx (Nat.cast_nonneg columns), le_refl 0⟩
  · refine ⟨le_of_eq (hcol0 h).symm, ?_⟩
    subst h
    rw [from_grid_size]
    simp only [cpFinal, Vec2.add_def, Vec2.mul_def, Vec2.sub_def]
    by_cases hr2 : 2 ≤ rows
    · have hr2q : (2 : ℚ) ≤ (rows : ℚ) := by exact_mod_cast hr2
      simp only [if_pos hr2]
      have h1 : (0 : ℚ) ≤ tile_size.y * (rows : ℚ) :=
        mul_nonneg hty (Nat.cast_nonneg rows)
      have h2 : (0 : ℚ) ≤ (padding.getD Vec2.ZERO).y * ((rows : ℚ) - 1) :=
        mul_nonneg hpy (by linarith)
      nlinarith [h1, h2]
    · simp only [if_neg hr2]
      have h1 : (0 : ℚ) ≤ tile_size.y * (rows : ℚ) :=
        mul_nonneg hty (Nat.cast_nonneg rows)
      nlinarith [h1]

/-- Witness for C10 at `tile_size = (1,1)`, `padding = (1,1)`, two columns and
zero rows. -/
theorem from_grid_degenerate_spec_witness :
    (TextureAtlasLayout.from_grid ⟨1, 1⟩ 2 0 (some ⟨1, 1⟩) none).size
        = ⟨(1 : ℚ) * ((2 : Nat) : ℚ), 0⟩
    ∧ 0 ≤ (TextureAtlasLayout.from_grid ⟨1, 1⟩ 2 0 (some ⟨1, 1⟩) none).size.x :=
  ⟨(from_grid_degenerate_spec ⟨1, 1⟩ 2 0 (some ⟨1, 1⟩) none (by decide) (by decide)).1 rfl,
   ((from_grid_degenerate_spec ⟨1, 1⟩ 2 0 (some ⟨1, 1⟩) none (by decide) (by decide)).2.2
     (by decide) (by decide) (Or.inl rfl)).1⟩
